import Mathlib

/-
Verification of the jsconfig-generation tool (src/jsConfigUtil.ts).

The development shallowly embeds the TypeScript functions of the tool:
pure computations become Lean functions, the two I/O boundaries (the
JSON.parse of the npm output and the template file on disk) become
explicit parameters, and a JavaScript exception becomes an Except value.
-/

namespace AditoDevtools

/-- Model of the JavaScript string method startsWith on character lists:
charsStartWith s p is true when p is an initial segment of s.
(Lean own String.startsWith does not reduce in the kernel, so the
byte-level loop is restated over the character list of the string.) -/
def charsStartWith : List Char → List Char → Bool
  | _, [] => true
  | [], _ :: _ => false
  | c :: cs, d :: ds => (c == d) && charsStartWith cs ds

/-- Model of the JavaScript expression s.startsWith(p). -/
def strStartsWith (s p : String) : Bool :=
  charsStartWith s.data p.data

/-- A node of the npm list -j -l dependency tree (interface NpmListJSON).
The code reads only the dependencies mapping of a node, so a node is
identified with that mapping; an absent mapping is coalesced to the empty
object by the code and both are represented by nil.  The mapping is kept
in insertion order in first-key/next-sibling form: cons key child rest is
the object whose first entry maps key to the node child, followed by the
entries of rest.  JSON object keys are unique after JSON.parse. -/
inductive NpmListJSON : Type where
  | nil : NpmListJSON
  | cons (key : String) (child : NpmListJSON) (rest : NpmListJSON) : NpmListJSON
deriving DecidableEq

/-- Model of Object.keys applied to the dependencies mapping of a node:
the keys in insertion order. -/
def allKeys : NpmListJSON → List String
  | .nil => []
  | .cons key _ rest => key :: allKeys rest

/-- The direct dependency keys of a node that start with "@aditosoftware",
in insertion order; this is the local filter of getAditoDependenciesRecursive
(source lines 122-123). -/
def aditoKeys (jsonOutput : NpmListJSON) : List String :=
  (allKeys jsonOutput).filter (fun key => strStartsWith key "@aditosoftware")

/-- The recursive part of getAditoDependenciesRecursive (source lines 124-125):
for every direct dependency entry whose key starts with "@aditosoftware",
in insertion order, the full extraction of that entry child node.  The
source writes this as a flatMap of the matched keys, looking each key up in
the mapping again; as the keys of a parsed JSON object are unique, that
lookup returns exactly the child stored beside the key, which is what the
structural walk below recurses into.  Keys that do not match are not
recursed into. -/
def aditoChildExtract : NpmListJSON → List String
  | .nil => []
  | .cons key child rest =>
      (if strStartsWith key "@aditosoftware" then aditoKeys child ++ aditoChildExtract child
       else [])
        ++ aditoChildExtract rest

/-- Model of getAditoDependenciesRecursive (source lines 120-126): the keys
of the node that start with "@aditosoftware", concatenated with the
recursive extraction of each matched key child node. -/
def getAditoDependenciesRecursive (jsonOutput : NpmListJSON) : List String :=
  aditoKeys jsonOutput ++ aditoChildExtract jsonOutput

/-- One step of inserting into a JavaScript Set that is later converted back
to an array: a new element is appended at the end, an element already
present leaves the set unchanged (so the first occurrence wins). -/
def jsSetAdd (acc : List String) (x : String) : List String :=
  if acc.contains x then acc else acc ++ [x]

/-- Model of Array.from(new Set(l)): JavaScript Set iteration order is
insertion order, so the result keeps the first occurrence of every element
of l, in order. -/
def jsSetToArray (l : List String) : List String :=
  l.foldl jsSetAdd []

/-- The JavaScript exceptions the embedded code can raise: the SyntaxError
of JSON.parse on text that is not valid JSON, and the TypeError of reading
a property of null. -/
inductive JsError : Type where
  | parseError : JsError
  | typeError : JsError
deriving DecidableEq

/-- Model of parseAditoDependencies (source lines 107-112).  Its string
argument only ever flows into JSON.parse, so the argument is modelled
already parsed: none stands for raw text that is not valid JSON (JSON.parse
throws, modelled as the error branch), some tree for text that parsed to
tree.  (A parse result without a usable dependencies object, such as the
JSON text "4", parses to the empty mapping nil, because the code coalesces
a missing dependencies property with the empty object.) -/
def parseAditoDependencies (pOutput : Option NpmListJSON) : Except JsError (List String) :=
  match pOutput with
  | none => .error .parseError
  | some jsonObj => .ok (jsSetToArray (getAditoDependenciesRecursive jsonObj))

/-- Model of the compilerOptions part of the jsconfig (interface
CompilerOptions, source lines 138-148).  Every field of the interface is
optional in the file; paths is a JSON object kept as an insertion-ordered
association list from a rule key to its list of path patterns. -/
structure CompilerOptions : Type where
  module : Option String
  target : Option String
  moduleResolution : Option String
  baseUrl : Option String
  checkJs : Option Bool
  noEmit : Option Bool
  removeComments : Option Bool
  strict : Option Bool
  paths : Option (List (String × List String))
deriving DecidableEq

/-- The empty JavaScript object literal used by the nullish assignments of
transformTemplate, read as a CompilerOptions value: every field absent. -/
def CompilerOptions.empty : CompilerOptions :=
  { module := none, target := none, moduleResolution := none, baseUrl := none,
    checkJs := none, noEmit := none, removeComments := none, strict := none,
    paths := none }

/-- Model of the jsconfig document (interface JsConfigJSON, source lines
131-133). -/
structure JsConfigJSON : Type where
  compilerOptions : Option CompilerOptions
deriving DecidableEq

/-- Model of getDefaultConfigTemplate (source lines 164-181): the hard-coded
default jsconfig template, field by field. -/
def getDefaultConfigTemplate : JsConfigJSON :=
  { compilerOptions := some
      ({ module := some "es6",
         target := none,
         moduleResolution := some "node",
         baseUrl := some ".",
         checkJs := some true,
         noEmit := some true,
         removeComments := some true,
         strict := some false,
         paths := some
           [("*", ["process/*/process", "node_modules/*/process",
                   "node_modules/@aditosoftware/*/process"]),
            ("@aditosoftware/jdito-types",
             ["node_modules/@aditosoftware/jdito-types/index"])] }) }

/-- What JSON.parse can make of the template file contents.  The code
annotates the parse result as JsConfigJSON but JSON.parse is untyped: a
file containing the JSON literal null parses to null, which the type does
not rule out at runtime; objVal covers every object result, projected to
the fields the code reads. -/
inductive TemplateValue : Type where
  | nullVal : TemplateValue
  | objVal (json : JsConfigJSON) : TemplateValue
deriving DecidableEq

/-- The state of the file system at one path, as observed by getJsConfigJSON:
the file is absent (existsSync is false), present but unreadable
(readFileSync throws), present but not valid JSON (JSON.parse throws), or
present and parsed to a value. -/
inductive TemplateFileState : Type where
  | missing : TemplateFileState
  | unreadable : TemplateFileState
  | malformed : TemplateFileState
  | parses (value : TemplateValue) : TemplateFileState
deriving DecidableEq

/-- Model of getJsConfigJSON (source lines 66-86).  The file system is a
function from paths to file states, and the path supplier is the function
argument the source takes; the catch-all around readFileSync and JSON.parse
turns both failure states into the default template, and a missing file
also yields the default. -/
def getJsConfigJSON (fileSystem : String → TemplateFileState)
    (pTemplatePathFn : Unit → String) : TemplateValue :=
  let templatePath := pTemplatePathFn ()
  match fileSystem templatePath with
  | .missing => .objVal getDefaultConfigTemplate
  | .unreadable => .objVal getDefaultConfigTemplate
  | .malformed => .objVal getDefaultConfigTemplate
  | .parses value => value

/-- Model of getExistingThirdPartyDependencies (source lines 94-99): the
entries of the "*" rule of the document paths (an absent compilerOptions,
paths, or "*" rule each coalesced to empty), keeping those that do not
start with "@aditosoftware". -/
def getExistingThirdPartyDependencies (pJsConfigJSON : JsConfigJSON) : List String :=
  let paths := (pJsConfigJSON.compilerOptions.bind CompilerOptions.paths).getD []
  let pathValues := (List.lookup "*" paths).getD []
  pathValues.filter (fun pValue => !(strStartsWith pValue "@aditosoftware"))

/-- Model of getPathExtensionsToSet (source lines 48-58): parse the npm
output into the deduplicated "@aditosoftware" dependency names, then append
to the existing third-party entries one synthesized pattern per name.  The
JSON.parse inside parseAditoDependencies can throw, which propagates. -/
def getPathExtensionsToSet (pExistingJsConfigJSON : JsConfigJSON)
    (pOutput : Option NpmListJSON) : Except JsError (List String) :=
  match parseAditoDependencies pOutput with
  | .error e => .error e
  | .ok aditoDependencies =>
      let pathExtensions := getExistingThirdPartyDependencies pExistingJsConfigJSON
      .ok (pathExtensions ++
        aditoDependencies.map (fun pDependency =>
          "node_modules/" ++ pDependency ++ "/process/*/process"))

/-- Model of the JavaScript assignment obj[key] = value on a JSON object in
insertion-ordered association-list form: an existing key keeps its position
and gets the new value, a fresh key is appended at the end. -/
def objSetKey (obj : List (String × List String)) (key : String)
    (value : List String) : List (String × List String) :=
  if obj.any (fun p => p.1 == key) then
    obj.map (fun p => if p.1 == key then (p.1, value) else p)
  else
    obj ++ [(key, value)]

/-- Model of transformTemplate (source lines 32-39).  The source reads
pTemplateJSON.compilerOptions on its untyped argument first, so a null
template raises a TypeError before anything else happens; on an object it
installs empty objects for an absent compilerOptions and paths (the two
nullish assignments), then overwrites the "*" rule with the synthesized
list, propagating the parse error of the npm output if there is one.  All
other fields of the document pass through unchanged. -/
def transformTemplate (pTemplateJSON : TemplateValue)
    (pOutput : Option NpmListJSON) : Except JsError JsConfigJSON :=
  match pTemplateJSON with
  | .nullVal => .error .typeError
  | .objVal json =>
      let co := json.compilerOptions.getD CompilerOptions.empty
      let paths := co.paths.getD []
      let withDefaults : JsConfigJSON :=
        { compilerOptions := some { co with paths := some paths } }
      match getPathExtensionsToSet withDefaults pOutput with
      | .error e => .error e
      | .ok exts =>
          .ok { compilerOptions := some { co with paths := some (objSetKey paths "*" exts) } }

/-- The error object an exec callback receives when the npm invocation did
not succeed (ExecException); the code reads only its name and message. -/
structure ExecException : Type where
  name : String
  message : String
deriving DecidableEq

/-- How one invocation of the orchestrator ends: a normal return, or a
JavaScript exception propagating to the caller. -/
inductive Outcome : Type where
  | normal : Outcome
  | threw (e : JsError) : Outcome
deriving DecidableEq

/-- The observable effects of one orchestrator invocation: the console
lines logged, the files written (file name paired with the document handed
to JSON.stringify), and how the invocation ended. -/
structure OrchestratorRun : Type where
  logs : List String
  writes : List (String × JsConfigJSON)
  outcome : Outcome
deriving DecidableEq

/-- Model of createJsConfigFile (source lines 11-23).  A non-null error
logs one diagnostic line and returns without writing; otherwise the
template is loaded and transformed, and the result is written to
jsconfig.json, unless the transform raised, in which case the exception
propagates and nothing is written. -/
def createJsConfigFile (pOutput : Option NpmListJSON) (pError : Option ExecException)
    (pStdErr : String) (fileSystem : String → TemplateFileState)
    (pTemplatePathFn : Unit → String) : OrchestratorRun :=
  match pError with
  | some e =>
      { logs := ["npm list command failed due to " ++ e.name ++ ": " ++ e.message ++
          ".\nError output: " ++ pStdErr ++ "\nCannot create jsconfig"],
        writes := [],
        outcome := .normal }
  | none =>
      match transformTemplate (getJsConfigJSON fileSystem pTemplatePathFn) pOutput with
      | .error e => { logs := [], writes := [], outcome := .threw e }
      | .ok json => { logs := [], writes := [("jsconfig.json", json)], outcome := .normal }

/-- The wildcard-rule entries of a document: the value stored under the "*"
key of the paths mapping, with an absent compilerOptions, paths mapping or
"*" rule read as the empty sequence.  Used to state the synthesizer claims. -/
def wildcardEntries (json : JsConfigJSON) : List String :=
  (List.lookup "*" ((json.compilerOptions.bind CompilerOptions.paths).getD [])).getD []

/-- Modelled from the spec (section 4.1, Traversal): the pre-order
depth-first listing of every dependency name of a tree, every direct key in
insertion order immediately followed by the names of its own subtree. -/
def preOrderNames : NpmListJSON → List String
  | .nil => []
  | .cons key child rest => key :: (preOrderNames child ++ preOrderNames rest)

/-- Modelled from the spec: the extractor contract of spec section 4.1 —
record every name starting with the target namespace in first-seen
pre-order, recursing into every dependency whether or not its key matched,
with Set deduplication. -/
def specExtractNamespacedDependencies (tree : NpmListJSON) : List String :=
  jsSetToArray ((preOrderNames tree).filter (fun s => strStartsWith s "@aditosoftware"))

/-- Keep the first occurrence of every element of a list and drop the later
duplicates: the reference description of first-seen deduplication used to
state the order claims. -/
def firstOccurDedup : List String → List String
  | [] => []
  | x :: xs => x :: firstOccurDedup (xs.filter (fun y => y != x))
termination_by l => l.length
decreasing_by
  simp only [List.length_cons]
  exact Nat.lt_succ_of_le (List.length_filter_le _ xs)

/-- Membership after folding Set insertions: an element is in the result
exactly when it is in the accumulator or in the remaining input. -/
theorem mem_foldl_jsSetAdd (l : List String) :
    ∀ (acc : List String) (a : String), a ∈ l.foldl jsSetAdd acc ↔ a ∈ acc ∨ a ∈ l := by
  induction l with
  | nil => intro acc a; simp
  | cons x xs ih =>
    intro acc a
    rw [List.foldl_cons, ih]
    by_cases h : acc.contains x = true
    · have hx : x ∈ acc := List.elem_iff.mp h
      simp only [jsSetAdd, if_pos h, List.mem_cons]
      constructor
      · rintro (h1 | h2)
        · exact Or.inl h1
        · exact Or.inr (Or.inr h2)
      · rintro (h1 | h2 | h3)
        · exact Or.inl h1
        · exact Or.inl (h2 ▸ hx)
        · exact Or.inr h3
    · simp only [jsSetAdd, if_neg h, List.mem_append, List.mem_singleton, List.mem_cons]
      tauto

/-- Folding Set insertions preserves freedom from duplicates. -/
theorem nodup_foldl_jsSetAdd (l : List String) :
    ∀ acc : List String, acc.Nodup → (l.foldl jsSetAdd acc).Nodup := by
  induction l with
  | nil => intro acc h; simpa using h
  | cons x xs ih =>
    intro acc h
    rw [List.foldl_cons]
    apply ih
    by_cases hc : x ∈ acc
    · simpa [jsSetAdd, hc] using h
    · simp [jsSetAdd, hc, List.nodup_append, h, List.disjoint_singleton]

/-- The Set round trip keeps exactly the elements of its input. -/
theorem mem_jsSetToArray {l : List String} {a : String} :
    a ∈ jsSetToArray l ↔ a ∈ l := by
  simpa [jsSetToArray] using mem_foldl_jsSetAdd l [] a

/-- The Set round trip returns a list without duplicates. -/
theorem nodup_jsSetToArray (l : List String) : (jsSetToArray l).Nodup :=
  nodup_foldl_jsSetAdd l [] List.nodup_nil

/-- Every key recorded by the local filter starts with the namespace. -/
theorem mem_aditoKeys {j : NpmListJSON} {s : String} (h : s ∈ aditoKeys j) :
    strStartsWith s "@aditosoftware" = true :=
  (List.mem_filter.mp h).2

/-- Every name produced by the recursive part starts with the namespace. -/
theorem mem_aditoChildExtract :
    ∀ (j : NpmListJSON) (s : String), s ∈ aditoChildExtract j →
      strStartsWith s "@aditosoftware" = true := by
  intro j
  induction j with
  | nil => intro s h; simp [aditoChildExtract] at h
  | cons key child rest ihc ihr =>
    intro s h
    simp only [aditoChildExtract, List.mem_append] at h
    rcases h with h | h
    · by_cases hk : strStartsWith key "@aditosoftware" = true
      · rw [if_pos hk] at h
        rcases List.mem_append.mp h with h | h
        · exact mem_aditoKeys h
        · exact ihc s h
      · rw [if_neg hk] at h
        simp at h
    · exact ihr s h

/-- Every name the extractor collects starts with the namespace. -/
theorem mem_getAditoDependenciesRecursive {j : NpmListJSON} {s : String}
    (h : s ∈ getAditoDependenciesRecursive j) :
    strStartsWith s "@aditosoftware" = true := by
  rcases List.mem_append.mp h with h | h
  · exact mem_aditoKeys h
  · exact mem_aditoChildExtract j s h

/-- On a tree none of whose names carries the namespace, both parts of the
extraction are empty. -/
theorem extract_eq_nil_of_no_match :
    ∀ j : NpmListJSON,
      (∀ s ∈ preOrderNames j, strStartsWith s "@aditosoftware" = false) →
      aditoKeys j = [] ∧ aditoChildExtract j = [] := by
  intro j
  induction j with
  | nil => intro _; exact ⟨rfl, rfl⟩
  | cons key child rest ihc ihr =>
    intro h
    have hkey : strStartsWith key "@aditosoftware" = false :=
      h key (by simp [preOrderNames])
    have hrest := ihr (fun s hs => h s (by simp [preOrderNames]; tauto))
    have hchild := ihc (fun s hs => h s (by simp [preOrderNames]; tauto))
    constructor
    · simp only [aditoKeys, allKeys, List.filter_cons, hkey]
      simpa [aditoKeys] using hrest.1
    · simp only [aditoChildExtract, hkey]
      simp [hrest.2]

/-- Folding Set insertions is first-occurrence deduplication of the part of
the input not already in the accumulator. -/
theorem foldl_jsSetAdd_eq_firstOccurDedup (l : List String) :
    ∀ acc : List String,
      l.foldl jsSetAdd acc = acc ++ firstOccurDedup (l.filter (fun y => !(acc.contains y))) := by
  induction l with
  | nil => intro acc; simp [firstOccurDedup]
  | cons x xs ih =>
    intro acc
    rw [List.foldl_cons]
    by_cases h : x ∈ acc
    · have hstep : jsSetAdd acc x = acc := by simp [jsSetAdd, h]
      rw [hstep, ih acc, List.filter_cons]
      simp [h]
    · have hstep : jsSetAdd acc x = acc ++ [x] := by simp [jsSetAdd, h]
      rw [hstep, ih (acc ++ [x])]
      rw [show List.filter (fun y => !(acc.contains y)) (x :: xs)
            = x :: List.filter (fun y => !(acc.contains y)) xs from by
          simp [List.filter_cons, h]]
      rw [firstOccurDedup, List.filter_filter, List.append_assoc]
      apply congrArg (fun t => acc ++ t)
      apply congrArg (fun t => x :: firstOccurDedup t)
      apply List.filter_congr
      intro y _
      by_cases hyx : y = x
      · subst hyx
        simp
      · by_cases hya : y ∈ acc
        · simp [List.contains, List.elem_eq_mem, hya, hyx]
        · simp [List.contains, List.elem_eq_mem, hya, hyx]

/-- The Set round trip keeps the first occurrence of every element. -/
theorem jsSetToArray_eq_firstOccurDedup (l : List String) :
    jsSetToArray l = firstOccurDedup l := by
  have h := foldl_jsSetAdd_eq_firstOccurDedup l []
  simpa [jsSetToArray] using h

/-- Claim C1, divergence witness: on the tree whose only scoped package
sits below the non-scoped dependency "express", the extractor of the code
returns no name at all, while the traversal the claim describes (visit
every node, recurse whether or not the key matched) collects the nested
"@aditosoftware/util".  The code recurses only into matched keys (source
line 125 maps over the filtered key list), so the claim fails on the code;
the function documentation ("all dependencies, including transitive
dependencies, whose organization scope is @aditosoftware") sides with the
claim. -/
theorem c1_nested_scoped_dependency_missed :
    parseAditoDependencies
        (some (.cons "express" (.cons "@aditosoftware/util" .nil .nil) .nil)) = .ok []
    ∧ specExtractNamespacedDependencies
        (.cons "express" (.cons "@aditosoftware/util" .nil .nil) .nil)
        = ["@aditosoftware/util"] := by
  constructor
  · rfl
  · rfl

/-- Claim C2, counterexample: on the tree with entries "@aditosoftware/a"
(whose child mapping holds "@aditosoftware/b") and "@aditosoftware/c", the
pre-order first-seen sequence is a, b, c, but the extractor returns
a, c, b: the code lists all matched keys of a node first and only then
appends the recursive results, so the returned order is not the pre-order
the claim states. -/
theorem c2_preorder_counterexample :
    parseAditoDependencies
        (some (.cons "@aditosoftware/a" (.cons "@aditosoftware/b" .nil .nil)
          (.cons "@aditosoftware/c" .nil .nil)))
      = .ok ["@aditosoftware/a", "@aditosoftware/c", "@aditosoftware/b"]
    ∧ specExtractNamespacedDependencies
        (.cons "@aditosoftware/a" (.cons "@aditosoftware/b" .nil .nil)
          (.cons "@aditosoftware/c" .nil .nil))
      = ["@aditosoftware/a", "@aditosoftware/b", "@aditosoftware/c"]
    ∧ (["@aditosoftware/a", "@aditosoftware/c", "@aditosoftware/b"] : List String)
      ≠ ["@aditosoftware/a", "@aditosoftware/b", "@aditosoftware/c"] := by
  refine ⟨rfl, rfl, ?_⟩
  decide

/-- Claim C2 as amended: the sequence returned by the extractor is the
first-occurrence deduplication (Set semantics, first occurrence retained)
of the traversal that lists, at each node, the matched direct keys in the
insertion order of the mapping and then, for each matched key in that
order, the listing of its own subtree — not of a pre-order traversal. -/
theorem c2_extraction_order_and_first_occurrence (tree : NpmListJSON) :
    parseAditoDependencies (some tree)
      = .ok (firstOccurDedup (getAditoDependenciesRecursive tree)) := by
  simp only [parseAditoDependencies, jsSetToArray_eq_firstOccurDedup]

/-- Claim C3: every name the extractor returns starts with the target
namespace, the returned sequence has no duplicate names, and on a tree
none of whose names carries the namespace the result is empty. -/
theorem c3_extractor_output_scoped_nodup_empty (tree : NpmListJSON) :
    ∀ result : List String, parseAditoDependencies (some tree) = .ok result →
      (∀ s ∈ result, strStartsWith s "@aditosoftware" = true)
      ∧ result.Nodup
      ∧ ((∀ s ∈ preOrderNames tree, strStartsWith s "@aditosoftware" = false) →
          result = []) := by
  intro result h
  have hr : result = jsSetToArray (getAditoDependenciesRecursive tree) := by
    simpa [parseAditoDependencies] using h.symm
  subst hr
  refine ⟨?_, nodup_jsSetToArray _, ?_⟩
  · intro s hs
    exact mem_getAditoDependenciesRecursive (mem_jsSetToArray.mp hs)
  · intro hnone
    have h2 := extract_eq_nil_of_no_match tree hnone
    simp [getAditoDependenciesRecursive, h2.1, h2.2, jsSetToArray, List.foldl_nil]

/-- Claim C3, closed witness: the extractor on the tree with the single
non-scoped dependency "express" returns the empty sequence. -/
theorem c3_extractor_witness :
    jsSetToArray (getAditoDependenciesRecursive (.cons "express" .nil .nil)) = [] :=
  (c3_extractor_output_scoped_nodup_empty (.cons "express" .nil .nil)
    (jsSetToArray (getAditoDependenciesRecursive (.cons "express" .nil .nil))) rfl).2.2
    (by decide)

/-- Claim C4: for every config document and parseable dependency output the
synthesized wildcard-rule list is exactly the document wildcard entries
(absent rule read as empty) with every entry starting with the namespace
removed, in their original relative order, followed by one pattern
node_modules/(name)/process/*/process per extracted name, in extraction
order. -/
theorem c4_synthesized_wildcard_rule_list (json : JsConfigJSON) (tree : NpmListJSON) :
    getPathExtensionsToSet json (some tree)
      = .ok ((wildcardEntries json).filter
              (fun e => !(strStartsWith e "@aditosoftware"))
          ++ (jsSetToArray (getAditoDependenciesRecursive tree)).map
              (fun n => "node_modules/" ++ n ++ "/process/*/process")) := by
  rfl

/-- Claim C5: for every file system and every path supplier, the template
loader returns the built-in default document when no file exists at the
supplied path, when reading it fails, and when parsing it fails; no
failure escapes the loader and no half-parsed document is produced (the loader
is a total function into full template values). -/
theorem c5_template_loader_default_fallback
    (fileSystem : String → TemplateFileState) (pTemplatePathFn : Unit → String)
    (h : fileSystem (pTemplatePathFn ()) = .missing
       ∨ fileSystem (pTemplatePathFn ()) = .unreadable
       ∨ fileSystem (pTemplatePathFn ()) = .malformed) :
    getJsConfigJSON fileSystem pTemplatePathFn = .objVal getDefaultConfigTemplate := by
  rcases h with h | h | h <;> simp [getJsConfigJSON, h]

/-- Claim C5, closed witness: a file system with no file at the default
template path makes the loader return the default document. -/
theorem c5_template_loader_witness :
    getJsConfigJSON (fun _ => .missing) (fun _ => "jsconfig.template.json")
      = .objVal getDefaultConfigTemplate :=
  c5_template_loader_default_fallback (fun _ => .missing)
    (fun _ => "jsconfig.template.json") (Or.inl rfl)

/-- Claim C6: with a non-null upstream process failure the orchestrator
logs exactly one diagnostic built from the failure name, its message and
the captured error-stream text, writes no file, and returns normally —
for every output, error object, stderr text, file system and path
supplier. -/
theorem c6_upstream_failure_no_write (pOutput : Option NpmListJSON)
    (e : ExecException) (pStdErr : String)
    (fileSystem : String → TemplateFileState) (pTemplatePathFn : Unit → String) :
    createJsConfigFile pOutput (some e) pStdErr fileSystem pTemplatePathFn
      = { logs := ["npm list command failed due to " ++ e.name ++ ": " ++ e.message ++
            ".\nError output: " ++ pStdErr ++ "\nCannot create jsconfig"],
          writes := [],
          outcome := .normal } := by
  rfl

/-- Claim C7, counterexample: when the template file parses to the JSON
literal null and the dependency output is unparseable, the invocation does
abort without writing, but the error that propagates is the TypeError of
the transform reading compilerOptions of null, not the parse error the
claim names — the transform dereferences the template before the output is
parsed. -/
theorem c7_null_template_counterexample :
    createJsConfigFile none none "" (fun _ => .parses .nullVal)
        (fun _ => "jsconfig.template.json")
      = { logs := [], writes := [], outcome := .threw .typeError }
    ∧ Outcome.threw .typeError ≠ Outcome.threw .parseError := by
  exact ⟨rfl, by decide⟩

/-- Claim C7 as amended: with no upstream failure and unparseable
dependency output the orchestrator writes nothing, logs nothing and does
not return normally; the propagated error is the parse error whenever the
loaded template is an object document (in particular whenever the template
file is missing, unreadable or malformed), while a template that parses to
null makes the type error of the transform propagate instead. -/
theorem c7_parse_failure_fatal_no_write (pStdErr : String)
    (fileSystem : String → TemplateFileState) (pTemplatePathFn : Unit → String) :
    (createJsConfigFile none none pStdErr fileSystem pTemplatePathFn).writes = []
    ∧ (createJsConfigFile none none pStdErr fileSystem pTemplatePathFn).logs = []
    ∧ (createJsConfigFile none none pStdErr fileSystem pTemplatePathFn).outcome ≠ .normal
    ∧ (∀ json : JsConfigJSON,
        getJsConfigJSON fileSystem pTemplatePathFn = .objVal json →
        (createJsConfigFile none none pStdErr fileSystem pTemplatePathFn).outcome
          = .threw .parseError)
    ∧ (getJsConfigJSON fileSystem pTemplatePathFn = .nullVal →
        (createJsConfigFile none none pStdErr fileSystem pTemplatePathFn).outcome
          = .threw .typeError) := by
  cases hload : getJsConfigJSON fileSystem pTemplatePathFn with
  | nullVal =>
      refine ⟨?_, ?_, ?_, ?_, ?_⟩ <;>
        simp [createJsConfigFile, hload, transformTemplate]
  | objVal json =>
      refine ⟨?_, ?_, ?_, ?_, ?_⟩ <;>
        simp [createJsConfigFile, hload, transformTemplate, getPathExtensionsToSet,
          parseAditoDependencies]

/-- Claim C7, closed witness: with a missing template file and unparseable
dependency output the parse error propagates. -/
theorem c7_parse_failure_witness :
    (createJsConfigFile none none "" (fun _ => .missing)
        (fun _ => "jsconfig.template.json")).outcome = .threw .parseError :=
  (c7_parse_failure_fatal_no_write "" (fun _ => .missing)
      (fun _ => "jsconfig.template.json")).2.2.2.1 getDefaultConfigTemplate rfl

/-- Claim C8: the synthesizer applied to the built-in default document and
the empty dependency tree returns the default wildcard-rule list
unchanged — nothing is filtered out and nothing is appended. -/
theorem c8_default_roundtrip :
    getPathExtensionsToSet getDefaultConfigTemplate (some .nil)
      = .ok ["process/*/process", "node_modules/*/process",
             "node_modules/@aditosoftware/*/process"]
    ∧ wildcardEntries getDefaultConfigTemplate
      = ["process/*/process", "node_modules/*/process",
         "node_modules/@aditosoftware/*/process"] := by
  exact ⟨rfl, rfl⟩

/-- Claim C9, counterexample: a template whose wildcard rule already holds
the pattern node_modules/@aditosoftware/util/process/*/process (an entry
without duplicates, and not filtered out because it starts with
node_modules, not with the namespace) combined with a tree that makes the
extractor produce "@aditosoftware/util" yields that pattern twice: the
synthesis step itself introduces a duplicate that did not pre-exist in the
template, against the claim. -/
theorem c9_duplicate_counterexample :
    getPathExtensionsToSet
        ({ compilerOptions := some
            ({ CompilerOptions.empty with
               paths := some [("*", ["node_modules/@aditosoftware/util/process/*/process"])] }) })
        (some (.cons "@aditosoftware/util" .nil .nil))
      = .ok ["node_modules/@aditosoftware/util/process/*/process",
             "node_modules/@aditosoftware/util/process/*/process"]
    ∧ (["node_modules/@aditosoftware/util/process/*/process"] : List String).Nodup
    ∧ ¬ (["node_modules/@aditosoftware/util/process/*/process",
          "node_modules/@aditosoftware/util/process/*/process"] : List String).Nodup := by
  refine ⟨rfl, by decide, by decide⟩

/-- Claim C9 as amended: the batch of entries the synthesis appends is
itself free of duplicates (the extracted names are deduplicated and the
pattern map is injective), and the retained template entries are free of
duplicates whenever the template wildcard entries were; a duplicate can
still arise between a retained template entry and an appended entry. -/
theorem c9_no_duplicates_within_batches (json : JsConfigJSON) (tree : NpmListJSON) :
    ((jsSetToArray (getAditoDependenciesRecursive tree)).map
        (fun n => "node_modules/" ++ n ++ "/process/*/process")).Nodup
    ∧ ((wildcardEntries json).Nodup →
        ((wildcardEntries json).filter
          (fun e => !(strStartsWith e "@aditosoftware"))).Nodup) := by
  constructor
  · apply List.Nodup.map
    · intro a b hab
      have hd := congrArg String.data hab
      simp only [String.data_append] at hd
      exact String.ext (List.append_cancel_left (List.append_cancel_right hd))
    · exact nodup_jsSetToArray _
  · intro h
    exact List.Nodup.filter _ h

/-- Claim C9, closed witness: on the default template and the empty tree
both batches are duplicate-free. -/
theorem c9_no_duplicates_witness :
    ((jsSetToArray (getAditoDependenciesRecursive .nil)).map
        (fun n => "node_modules/" ++ n ++ "/process/*/process")).Nodup
    ∧ ((wildcardEntries getDefaultConfigTemplate).filter
        (fun e => !(strStartsWith e "@aditosoftware"))).Nodup :=
  ⟨(c9_no_duplicates_within_batches getDefaultConfigTemplate .nil).1,
   (c9_no_duplicates_within_batches getDefaultConfigTemplate .nil).2 (by decide)⟩

/-- Claim C10: a template file containing the JSON literal null parses
successfully but is not an object; the loader hands the null through
as-is, the transform then throws its TypeError on reading compilerOptions,
and the whole invocation aborts without writing any file — the pipeline is
not total over successfully parsed templates. -/
theorem c10_null_template_aborts_pipeline :
    getJsConfigJSON (fun _ => .parses .nullVal) (fun _ => "jsconfig.template.json")
      = .nullVal
    ∧ transformTemplate .nullVal (some .nil) = .error .typeError
    ∧ createJsConfigFile (some .nil) none "" (fun _ => .parses .nullVal)
        (fun _ => "jsconfig.template.json")
      = { logs := [], writes := [], outcome := .threw .typeError } := by
  exact ⟨rfl, rfl, rfl⟩

end AditoDevtools
